import Mathlib

/-!
# go-grpcpool: the shared connection pool and the gRPC error classifier

A shallow embedding of `grpcpool/shared/shared.go` (the single-slot connection
pool: `New`, `Close`, `checkIdleConnection`, `Get`, `Return`, `Connection`) and of
`grpcpool/errors.go` (`DecodeGrpcError`).

Modelling conventions.

* `time.Duration` is an `int64` count of nanoseconds; it is an `Int` here.  No
  arithmetic is done on durations in the embedded code except the comparison in
  `New`, so no reduction modulo `2^64` is needed for them.
* `time.Time` is an `Int` count of nanoseconds on one clock; `t.Add d` is `t + d`
  and `t.Before u` is `t < u`.  The clock reading `time.Now()` is an argument.
* `uint64` is a `Nat` with every update reduced modulo `2^64`.
* `*grpc.ClientConn` is `Option Conn`, with `none` the nil pointer.
* The mutex makes each method body atomic; one call is one function application.
* Calls that leave the pool (`conn.Close()`, the two factory methods) are
  recorded in an event list returned next to the new state.
-/

namespace Shared

/-! ## Data model -/

/-- A connection handle: the identity of one `grpc.ClientConn` object. -/
abbrev Conn := Nat

/-- Nanoseconds (`time.Duration`). -/
abbrev Duration := Int

/-- Nanoseconds on the pool's clock (`time.Time`). -/
abbrev Time := Int

/-- The constant `time.Second` of the Go standard library, in nanoseconds. -/
def timeSecond : Duration := 1000000000

/-- The untyped constant of shared.go line 14. -/
def idleWatchDogWakeupSeconds : Int := 30

/-- The period the watchdog sleeps between two idle checks,
`time.Second * idleWatchDogWakeupSeconds` (shared.go line 82). -/
def watchDogWakeInterval : Duration := timeSecond * idleWatchDogWakeupSeconds

/-- Error values.  `clientConnClosing` and `clientConnNotOk` are the two package
variables `ErrClientConnClosing` and `ErrClientConnNotOk`; `canceled` and
`deadlineExceeded` are the two errors a standard context reports; `other n`
is any other error value. -/
inductive Err where
  | clientConnClosing
  | clientConnNotOk
  | canceled
  | deadlineExceeded
  | other (n : Nat)
  deriving DecidableEq, Repr

/-- The package variable `ErrClientConnClosing`. -/
def ErrClientConnClosing : Err := Err.clientConnClosing

/-- The package variable `ErrClientConnNotOk`. -/
def ErrClientConnNotOk : Err := Err.clientConnNotOk

/-- The `Pool` struct.  `clientWg` is the counter of the `clientWg` wait group;
`watchDogCanceled` records that `watchDogCancel` has been called.  The factory
is not a field here: its answers are an argument of `Get`. -/
structure Pool where
  conn : Option Conn
  idleTimeout : Duration
  timeIdleStart : Time
  clientCount : Nat
  closing : Bool
  clientWg : Nat
  watchDogCanceled : Bool
  deriving DecidableEq, Repr

/-- The `ClientConn` struct (the lease).  Its `pool` pointer is the one pool of
the model. -/
structure ClientConn where
  conn : Option Conn
  returned : Bool
  deriving DecidableEq, Repr

/-- A call that leaves the pool. -/
inductive Event where
  | newConnection
  | connectionOk (c : Option Conn)
  | connClose (c : Conn)
  deriving DecidableEq, Repr

/-- The size of `uint64`. -/
def u64 : Nat := 2 ^ 64

/-! ## New -/

/-- Function `New` (shared.go lines 40-57); `now` is the reading of `time.Now()`.
The comparison is between the `time.Duration` argument and the untyped constant
`idleWatchDogWakeupSeconds`, which Go converts to the duration of 30 nanoseconds. -/
def New (idleTimeout : Duration) (now : Time) : Pool :=
  let idleTimeout := if idleTimeout < idleWatchDogWakeupSeconds then idleWatchDogWakeupSeconds else idleTimeout
  { conn := none
    idleTimeout := idleTimeout
    timeIdleStart := now
    clientCount := 0
    closing := false
    clientWg := 0
    watchDogCanceled := false }

/-! ## The watchdog tick -/

/-- Method `checkIdleConnection` (shared.go lines 91-106); `now` is the reading of
`time.Now()` on line 101. -/
def checkIdleConnection (now : Time) (p : Pool) : Pool × List Event :=
  match p.conn with
  | none => (p, [])
  | some c =>
    if p.clientCount > 0 then (p, [])
    else if p.timeIdleStart + p.idleTimeout < now then
      ({ p with conn := none }, [Event.connClose c])
    else (p, [])

/-! ## Get -/

/-- The `context.Context` handed to one `Get` call, as far as `Get` observes it.
`doneAfter = some k` says the context is canceled or expired by the time the
`k`-th factory call of this `Get` has returned (`k = 0`: before the first one
started) and `ctx.Err()` is `err` from then on; `doneAfter = none` says the
context stays live for the whole call. -/
structure Ctx where
  doneAfter : Option Nat
  err : Err
  deriving DecidableEq, Repr

/-- The value of `ctx.Err()` read after `k` factory calls have returned. -/
def Ctx.Err (ctx : Ctx) (k : Nat) : Option Err :=
  match ctx.doneAfter with
  | none => none
  | some d => if d ≤ k then some ctx.err else none

/-- The answers of the `grpcpool.ConnectionFactory` to one `Get` call.  The
`Nat` argument is the number of factory calls that this `Get` has already
completed, so the two probes of one `Get` may answer differently.
`NewConnection` returns a handle and an error, each of which may be nil;
`ConnectionOk` returns an error or nil. -/
structure Factory where
  NewConnection : Nat → Option Conn × Option Err
  ConnectionOk : Nat → Option Conn → Option Err

/-- How a `Get` call ends: with a lease and a nil error, with a nil lease and an
error, or in a nil-pointer panic (`p.conn.Close()` on line 160 when the factory
returned a nil handle with a nil error). -/
inductive Outcome where
  | lease (c : ClientConn)
  | error (e : Err)
  | nilDeref
  deriving DecidableEq, Repr

/-- The result of one `Get` call: the pool afterwards, how the call ended, and
the outside calls it made, in order. -/
structure GetResult where
  pool : Pool
  outcome : Outcome
  events : List Event
  deriving DecidableEq, Repr

/-- Lines 167-175 of `Get`: wrap the slot's connection and count the borrower. -/
def issue (p : Pool) (events : List Event) : GetResult :=
  { pool := { p with clientCount := (p.clientCount + 1) % u64, clientWg := p.clientWg + 1 }
    outcome := Outcome.lease { conn := p.conn, returned := false }
    events := events }

/-- Method `Pool.Get` (shared.go lines 108-176). -/
def Pool.Get (p : Pool) (ctx : Ctx) (factory : Factory) : GetResult :=
  if p.closing then
    { pool := p, outcome := Outcome.error ErrClientConnClosing, events := [] }
  else
    match p.conn with
    | none =>
      -- lines 117-130
      match factory.NewConnection 0 with
      | (c, some err) =>
        let closed := match c with
          | some h => [Event.connClose h]
          | none => []
        match ctx.Err 1 with
        | some ce =>
          { pool := { p with conn := none }, outcome := Outcome.error ce,
            events := Event.newConnection :: closed }
        | none =>
          { pool := { p with conn := none }, outcome := Outcome.error err,
            events := Event.newConnection :: closed }
      | (c, none) => issue { p with conn := c } [Event.newConnection]
    | some c0 =>
      -- lines 132-164
      let err := factory.ConnectionOk 0 (some c0)
      match ctx.Err 1 with
      | some ce =>
        { pool := p, outcome := Outcome.error ce, events := [Event.connectionOk (some c0)] }
      | none =>
        match err with
        | none => issue p [Event.connectionOk (some c0)]
        | some e =>
          let ev1 := [Event.connectionOk (some c0), Event.connClose c0, Event.newConnection]
          match factory.NewConnection 1 with
          | (c, err2) =>
            match ctx.Err 2 with
            | some ce =>
              { pool := { p with conn := c }, outcome := Outcome.error ce, events := ev1 }
            | none =>
              match err2 with
              | some _ =>
                { pool := { p with conn := none }, outcome := Outcome.error e, events := ev1 }
              | none =>
                let err3 := factory.ConnectionOk 2 c
                let ev2 := ev1 ++ [Event.connectionOk c]
                match ctx.Err 3 with
                | some ce =>
                  { pool := { p with conn := c }, outcome := Outcome.error ce, events := ev2 }
                | none =>
                  match err3 with
                  | some _ =>
                    match c with
                    | some h =>
                      { pool := { p with conn := none },
                        outcome := Outcome.error ErrClientConnNotOk,
                        events := ev2 ++ [Event.connClose h] }
                    | none =>
                      { pool := { p with conn := none }, outcome := Outcome.nilDeref,
                        events := ev2 }
                  | none => issue { p with conn := c } ev2

/-! ## Return and Connection -/

/-- Method `ClientConn.Return` (shared.go lines 178-192) on the lease `c` of the
pool `p`; `now` is the reading of `time.Now()` on line 186.  The result is
`none` when `clientWg.Done()` panics because the wait-group counter is
already zero. -/
def ClientConn.Return (now : Time) (p : Pool) (c : ClientConn) : Option (Pool × ClientConn) :=
  if c.returned then some (p, c)
  else
    let clientCount := (p.clientCount + u64 - 1) % u64
    let timeIdleStart := if clientCount = 0 then now else p.timeIdleStart
    if p.clientWg = 0 then none
    else
      some ({ p with clientCount := clientCount, timeIdleStart := timeIdleStart,
                     clientWg := p.clientWg - 1 },
            { c with returned := true, conn := none })

/-- Method `ClientConn.Connection` (shared.go lines 194-196). -/
def ClientConn.Connection (c : ClientConn) : Option Conn := c.conn

/-! ## Close -/

/-- The locked section of `Pool.Close` (shared.go lines 61-70).  The two waits
that follow it (lines 73 and 75) block the caller and change no field. -/
def Pool.Close (p : Pool) : Pool × List Event :=
  let closed := match p.conn with
    | some c => [Event.connClose c]
    | none => []
  ({ p with closing := true, watchDogCanceled := true }, closed)

/-! ## Sequences of calls -/

/-- The pool, every lease issued so far (in the order of issue) and the log of
the outside calls made so far. -/
structure Sys where
  pool : Pool
  leases : List ClientConn
  log : List Event
  deriving DecidableEq, Repr

/-- One call on the pool: `Get` with its context and the factory's answers,
`Return` on the `i`-th lease issued, one watchdog tick, or `Close`. -/
inductive Op where
  | get (ctx : Ctx) (factory : Factory)
  | ret (i : Nat) (now : Time)
  | tick (now : Time)
  | close

/-- The state after `New`. -/
def Sys.init (idleTimeout : Duration) (now : Time) : Sys :=
  { pool := New idleTimeout now, leases := [], log := [] }

/-- One call applied to the system.  The result is `none` when the call panics
or when `ret i` names a lease that was never issued. -/
def Sys.step (s : Sys) : Op → Option Sys
  | Op.get ctx factory =>
    let r := s.pool.Get ctx factory
    match r.outcome with
    | Outcome.lease c => some { pool := r.pool, leases := s.leases ++ [c], log := s.log ++ r.events }
    | Outcome.error _ => some { pool := r.pool, leases := s.leases, log := s.log ++ r.events }
    | Outcome.nilDeref => none
  | Op.ret i now =>
    match s.leases.get? i with
    | none => none
    | some c =>
      match c.Return now s.pool with
      | none => none
      | some (p, c1) => some { pool := p, leases := s.leases.set i c1, log := s.log }
  | Op.tick now =>
    let r := checkIdleConnection now s.pool
    some { pool := r.1, leases := s.leases, log := s.log ++ r.2 }
  | Op.close =>
    let r := s.pool.Close
    some { pool := r.1, leases := s.leases, log := s.log ++ r.2 }

/-- A sequence of calls applied in order. -/
def Sys.run (s : Sys) : List Op → Option Sys
  | [] => some s
  | op :: ops => (s.step op).bind fun s1 => s1.run ops

/-! ## Reading the event list -/

/-- Whether an event is a call of a factory method. -/
def Event.isFactoryCall : Event → Bool
  | Event.newConnection => true
  | Event.connectionOk _ => true
  | Event.connClose _ => false

/-- The number of factory calls in an event list. -/
def factoryCalls (events : List Event) : Nat := events.countP Event.isFactoryCall

/-! ## Counting leases -/

/-- The number of leases in a list that have not been returned. -/
def outstanding (leases : List ClientConn) : Nat := leases.countP fun c => !c.returned

/-! ## Sample inputs -/

/-- A context that is never canceled. -/
def liveCtx : Ctx := { doneAfter := none, err := Err.canceled }

/-- A context canceled by the time the `k`-th factory call has returned. -/
def canceledCtx (k : Nat) : Ctx := { doneAfter := some k, err := Err.canceled }

/-- A factory whose every `NewConnection` returns handle 7 and whose every
probe succeeds. -/
def goodFactory : Factory :=
  { NewConnection := fun _ => (some 7, none), ConnectionOk := fun _ _ => none }

/-- A factory whose first probe fails with `other 1` and whose `NewConnection`
then returns handle 2 with a nil error; the second probe succeeds. -/
def reconnectFactory : Factory :=
  { NewConnection := fun _ => (some 2, none)
    ConnectionOk := fun k _ => if k = 0 then some (Err.other 1) else none }

/-- A factory whose every probe fails with `other 1` and whose every
`NewConnection` fails with `other 2` while still returning handle 2. -/
def leakyFactory : Factory :=
  { NewConnection := fun _ => (some 2, some (Err.other 2))
    ConnectionOk := fun _ _ => some (Err.other 1) }

/-- A factory whose every probe fails with `other 1` and whose every
`NewConnection` returns handle 2 with a nil error. -/
def unhealthyFactory : Factory :=
  { NewConnection := fun _ => (some 2, none)
    ConnectionOk := fun _ _ => some (Err.other 1) }

/-- The system after one successful `Get` on a fresh pool: handle 7 is in the
slot and lent out once. -/
def oneLeaseSys : Sys :=
  { pool := { conn := some 7, idleTimeout := 30, timeIdleStart := 0, clientCount := 1,
              closing := false, clientWg := 1, watchDogCanceled := false }
    leases := [{ conn := some 7, returned := false }]
    log := [Event.newConnection] }

/-- A pool that is not closing, holds connection 1 and has no borrower. -/
def idlePool : Pool :=
  { conn := some 1, idleTimeout := 30, timeIdleStart := 0, clientCount := 0,
    closing := false, clientWg := 0, watchDogCanceled := false }

end Shared

namespace Grpcpool

/-! ## errors.go -/

/-- A Go `error` value as `DecodeGrpcError` observes it.  `grpcStatus` is the
answer of `status.FromError`: `some (code, message)` when it reports `ok`, with
`st.Code()` and `st.Message()` read off the status (a nil error is reported `ok`
with code 0 and an empty message), and `none` when it does not.  `isEOF` is
`errors.Is(err, io.EOF)` and `text` is `err.Error()`. -/
structure GoError where
  grpcStatus : Option (Nat × String)
  isEOF : Bool
  text : String
  deriving DecidableEq, Repr

/-- The value of `codes.Canceled`. -/
def codesCanceled : Nat := 1

/-- The value of `codes.Unavailable`. -/
def codesUnavailable : Nat := 14

/-- The second result of `DecodeGrpcError`: the error it was given, or the new
error built by `errors.Errorf` with the given message. -/
inductive ReturnErr where
  | original
  | rpcErr (message : String)
  deriving DecidableEq, Repr

/-- The Go function `strings.Contains`. -/
def stringsContains (s substr : String) : Bool :=
  decide (substr.toList <:+: s.toList)

/-- The message `errors.Errorf("error on grpc request %s (%d)", message, code)`. -/
def rpcErrMessage (message : String) (code : Nat) : String :=
  "error on grpc request " ++ message ++ " (" ++ toString code ++ ")"

/-- Function `DecodeGrpcError` (errors.go lines 12-37). -/
def DecodeGrpcError (err : GoError) : Bool × ReturnErr :=
  match err.grpcStatus with
  | some (code, message) =>
    if code = codesCanceled ∨ code = codesUnavailable then
      (true, ReturnErr.original)
    else
      (false, ReturnErr.rpcErr (rpcErrMessage message code))
  | none =>
    if err.isEOF then (true, ReturnErr.original)
    else if stringsContains err.text "use of closed network connection" then (true, ReturnErr.original)
    else if stringsContains err.text "Error while dialing" then (true, ReturnErr.original)
    else if stringsContains err.text "context canceled" then (true, ReturnErr.original)
    else (true, ReturnErr.original)

/-- Function `GrpcErrIsConnFail` (errors.go lines 40-43). -/
def GrpcErrIsConnFail (err : GoError) : Bool := (DecodeGrpcError err).1

/-- The connection-failure signals as the specification lists them: a gRPC
status with code Canceled or Unavailable, `io.EOF`, or a message containing
"use of closed network connection", "Error while dialing" or
"context canceled".  Written from the specification, to be compared with
`DecodeGrpcError`. -/
def specRecognizedSignal (err : GoError) : Bool :=
  (match err.grpcStatus with
    | some (code, _) => decide (code = codesCanceled ∨ code = codesUnavailable)
    | none => false)
  || err.isEOF
  || stringsContains err.text "use of closed network connection"
  || stringsContains err.text "Error while dialing"
  || stringsContains err.text "context canceled"

/-- A plain error (no gRPC status, not `io.EOF`) with the text "boom". -/
def plainError : GoError := { grpcStatus := none, isEOF := false, text := "boom" }

/-- A gRPC status error with code 13 (Internal) and the message
"context canceled". -/
def internalStatusError : GoError :=
  { grpcStatus := some (13, "context canceled"), isEOF := false,
    text := "rpc error: code = Internal desc = context canceled" }

end Grpcpool

/-! # Theorems -/

namespace Shared

/-! ## Helper lemmas -/

theorem ctxErr_none_of_le (ctx : Ctx) {j k : Nat} (hjk : j ≤ k) (h : ctx.Err k = none) :
    ctx.Err j = none := by
  unfold Ctx.Err at *
  cases hd : ctx.doneAfter with
  | none => rfl
  | some d =>
    simp only [hd] at h ⊢
    by_cases hk : d ≤ k
    · simp [hk] at h
    · have : ¬ d ≤ j := fun hj => hk (le_trans hj hjk)
      simp [this]

theorem ctxErr_some_of_le (ctx : Ctx) {j k : Nat} {e : Err} (hjk : j ≤ k)
    (h : ctx.Err j = some e) : ctx.Err k = some e := by
  unfold Ctx.Err at *
  cases hd : ctx.doneAfter with
  | none => simp [hd] at h
  | some d =>
    simp only [hd] at h ⊢
    by_cases hj : d ≤ j
    · have hk : d ≤ k := le_trans hj hjk
      simpa [hj, hk] using h
    · simp [hj] at h

theorem checkIdleConnection_of_pos (now : Time) (p : Pool) (h : 0 < p.clientCount) :
    checkIdleConnection now p = (p, []) := by
  unfold checkIdleConnection
  cases p.conn with
  | none => rfl
  | some c => simp [h]

theorem Get_of_closing (p : Pool) (ctx : Ctx) (factory : Factory) (h : p.closing = true) :
    p.Get ctx factory
      = { pool := p, outcome := Outcome.error ErrClientConnClosing, events := [] } := by
  unfold Pool.Get
  rw [if_pos h]

theorem Return_closing (now : Time) (p q : Pool) (c c1 : ClientConn)
    (h : c.Return now p = some (q, c1)) : q.closing = p.closing := by
  unfold ClientConn.Return at h
  by_cases hret : c.returned = true
  · rw [if_pos hret] at h
    cases h
    rfl
  · rw [if_neg hret] at h
    by_cases hwg : p.clientWg = 0
    · simp [hwg] at h
    · simp only [hwg, if_false, Option.some.injEq, Prod.mk.injEq] at h
      rw [← h.1]

theorem checkIdleConnection_closing (now : Time) (p : Pool) :
    (checkIdleConnection now p).1.closing = p.closing := by
  unfold checkIdleConnection
  cases p.conn with
  | none => rfl
  | some c =>
    by_cases h1 : p.clientCount > 0
    · simp [h1]
    · by_cases h2 : p.timeIdleStart + p.idleTimeout < now
      · simp [h1, h2]
      · simp [h1, h2]

/-- The shape of a successful `Get`: the lease is unreturned and wraps the
connection now in the slot, and only the slot and the two borrower counters of
the pool have changed. -/
theorem Get_lease_shape (p : Pool) (ctx : Ctx) (factory : Factory) (l : ClientConn)
    (h : (p.Get ctx factory).outcome = Outcome.lease l) :
    (p.Get ctx factory).pool
      = { p with conn := l.conn, clientCount := (p.clientCount + 1) % u64,
                 clientWg := p.clientWg + 1 } ∧
    l.returned = false ∧ p.closing = false := by
  rcases hcl : p.closing with _ | _
  · rcases hconn : p.conn with _ | c0
    · rcases hnew0 : factory.NewConnection 0 with ⟨c, _ | e0⟩
      · simp only [Pool.Get, hcl, hconn, hnew0, issue, Bool.false_eq_true, if_false,
          Outcome.lease.injEq] at h ⊢
        subst h
        simp
      · rcases h1 : ctx.Err 1 with _ | ce1 <;> simp [Pool.Get, hcl, hconn, hnew0, h1] at h
    · rcases h1 : ctx.Err 1 with _ | ce1
      · rcases hok : factory.ConnectionOk 0 (some c0) with _ | e1
        · simp only [Pool.Get, hcl, hconn, h1, hok, issue, Bool.false_eq_true, if_false,
            Outcome.lease.injEq] at h ⊢
          subst h
          simp [hconn]
        · rcases hnew : factory.NewConnection 1 with ⟨c, _ | e2⟩
          · rcases h2 : ctx.Err 2 with _ | ce2
            · rcases h3 : ctx.Err 3 with _ | ce3
              · rcases hok2 : factory.ConnectionOk 2 c with _ | e3
                · simp only [Pool.Get, hcl, hconn, h1, hok, hnew, h2, h3, hok2, issue,
                    Bool.false_eq_true, if_false, Outcome.lease.injEq] at h ⊢
                  subst h
                  simp
                · cases c <;>
                    simp [Pool.Get, hcl, hconn, h1, hok, hnew, h2, h3, hok2] at h
              · simp [Pool.Get, hcl, hconn, h1, hok, hnew, h2, h3] at h
            · simp [Pool.Get, hcl, hconn, h1, hok, hnew, h2] at h
          · rcases h2 : ctx.Err 2 with _ | ce2 <;>
              simp [Pool.Get, hcl, hconn, h1, hok, hnew, h2] at h
      · simp [Pool.Get, hcl, hconn, h1] at h
  · simp [Pool.Get, hcl] at h

/-! ## C1 -/

/-- C1: the claim says that `New` raises every idle timeout below the watchdog's
30-second wake interval to that interval.  `New` called with one second, which
is below the wake interval, keeps one second; called with 5 nanoseconds it
stores 30 nanoseconds.  In neither case is the stored timeout the wake
interval: `New` compares with the bare constant 30, not with 30 seconds. -/
theorem New_idleTimeout_not_wake_interval (now : Time) :
    timeSecond < watchDogWakeInterval ∧
    (New timeSecond now).idleTimeout = timeSecond ∧
    (New timeSecond now).idleTimeout ≠ watchDogWakeInterval ∧
    (New 5 now).idleTimeout = 30 ∧
    (New 5 now).idleTimeout ≠ watchDogWakeInterval := by
  simp [New, timeSecond, idleWatchDogWakeupSeconds, watchDogWakeInterval]

end Shared

namespace Shared

/-! ## C2 -/

theorem Get_existing_last_check (p : Pool) (ctx : Ctx) (factory : Factory) (c0 : Conn)
    (hclosing : p.closing = false) (hconn : p.conn = some c0) (e : Err)
    (h : ctx.Err (factoryCalls (p.Get ctx factory).events) = some e) :
    (p.Get ctx factory).outcome = Outcome.error e := by
  rcases h1 : ctx.Err 1 with _ | ce1 <;>
  rcases hok : factory.ConnectionOk 0 (some c0) with _ | e1 <;>
  rcases hnew : factory.NewConnection 1 with ⟨_ | c1, _ | e2⟩ <;>
  rcases h2 : ctx.Err 2 with _ | ce2 <;>
  rcases h3 : ctx.Err 3 with _ | ce3 <;>
  simp_all [Pool.Get, issue, factoryCalls, Event.isFactoryCall, List.countP_cons] <;>
  split at h <;> simp_all [List.countP_cons, Event.isFactoryCall]

/-- C2, as stated, fails.  First input: an empty slot, a context canceled before
`Get` starts, and a factory whose `NewConnection` returns handle 7 with a nil
error; `Get` issues a lease on handle 7 and leaves it in the slot.  Second
input: a pool holding connection 1 whose probe fails, and a context canceled
while the reconnecting `NewConnection` runs, which returns handle 2; `Get`
returns the context's error and handle 2 stays in the slot, not closed. -/
theorem Get_cancellation_counterexample :
    (canceledCtx 0).Err 1 = some Err.canceled ∧
    ((New 30 0).Get (canceledCtx 0) goodFactory).outcome
      = Outcome.lease { conn := some 7, returned := false } ∧
    ((New 30 0).Get (canceledCtx 0) goodFactory).pool.conn = some 7 ∧
    (canceledCtx 2).Err 2 = some Err.canceled ∧
    (idlePool.Get (canceledCtx 2) reconnectFactory).outcome = Outcome.error Err.canceled ∧
    (idlePool.Get (canceledCtx 2) reconnectFactory).pool.conn = some 2 ∧
    Event.connClose 2 ∉ (idlePool.Get (canceledCtx 2) reconnectFactory).events := by
  decide

/-- C2, amended.  For a pool that is not closing: when the slot holds a
connection and the context is canceled or expired by the time some factory call
made by this `Get` returns (the `k`-th one), `Get` returns the context's error
and no lease; when the slot is empty, `NewConnection` returns an error and the
context is canceled or expired by then, `Get` returns the context's error and no
lease and the slot is nil afterwards; when the slot is empty and `NewConnection`
returns a nil error, `Get` does not read the context and issues a lease on the
handle it got. -/
theorem Get_cancellation (p : Pool) (ctx : Ctx) (factory : Factory) (e : Err)
    (hclosing : p.closing = false) :
    (∀ c0, p.conn = some c0 → ∀ k, 1 ≤ k → k ≤ factoryCalls (p.Get ctx factory).events →
        ctx.Err k = some e → (p.Get ctx factory).outcome = Outcome.error e) ∧
    (p.conn = none → (factory.NewConnection 0).2 ≠ none → ctx.Err 1 = some e →
        (p.Get ctx factory).outcome = Outcome.error e ∧ (p.Get ctx factory).pool.conn = none) ∧
    (p.conn = none → (factory.NewConnection 0).2 = none →
        (p.Get ctx factory).outcome
          = Outcome.lease { conn := (factory.NewConnection 0).1, returned := false } ∧
        (p.Get ctx factory).pool.conn = (factory.NewConnection 0).1) := by
  refine ⟨?_, ?_, ?_⟩
  · intro c0 hconn k _ hk he
    exact Get_existing_last_check p ctx factory c0 hclosing hconn e
      (ctxErr_some_of_le ctx hk he)
  · intro hconn herr he
    rcases hnew : factory.NewConnection 0 with ⟨_ | c, _ | e0⟩ <;>
      simp_all [Pool.Get]
  · intro hconn herr
    rcases hnew : factory.NewConnection 0 with ⟨_ | c, _ | e0⟩ <;>
      simp_all [Pool.Get, issue]

/-- C2, amended, at a pool holding connection 1 whose probe fails while the
context is canceled during the reconnecting `NewConnection`. -/
theorem Get_cancellation_witness :
    idlePool.closing = false ∧
    (idlePool.Get (canceledCtx 2) reconnectFactory).outcome = Outcome.error Err.canceled :=
  ⟨by decide,
   (Get_cancellation idlePool (canceledCtx 2) reconnectFactory Err.canceled (by decide)).1
     1 (by decide) 2 (by decide) (by decide) (by decide)⟩

/-! ## C3 -/

/-- C3: in every state reached from `New` by a sequence of `Get`, `Return`,
watchdog ticks (and `Close`) in which `clientCount > 0`, a watchdog tick at any
time `now` closes nothing, leaves the connection in the slot and leaves the
whole pool, and the whole system state, unchanged.  The fact holds in every
pool state with `clientCount > 0`, reached or not. -/
theorem checkIdleConnection_borrowed (idleTimeout : Duration) (t0 : Time) (ops : List Op)
    (s : Sys) (now : Time) (_hrun : (Sys.init idleTimeout t0).run ops = some s)
    (hcount : 0 < s.pool.clientCount) :
    checkIdleConnection now s.pool = (s.pool, []) ∧
    (checkIdleConnection now s.pool).1.conn = s.pool.conn ∧
    s.step (Op.tick now) = some s := by
  have h := checkIdleConnection_of_pos now s.pool hcount
  refine ⟨h, by rw [h], ?_⟩
  simp [Sys.step, h]

/-- C3 at the state after one successful `Get` on a fresh pool: a tick a full
day later changes nothing. -/
theorem checkIdleConnection_borrowed_witness :
    (Sys.init 30 0).run [Op.get liveCtx goodFactory]
      = some { pool := { conn := some 7, idleTimeout := 30, timeIdleStart := 0, clientCount := 1,
                         closing := false, clientWg := 1, watchDogCanceled := false },
               leases := [{ conn := some 7, returned := false }],
               log := [Event.newConnection] } ∧
    checkIdleConnection 86400000000000
        { conn := some 7, idleTimeout := 30, timeIdleStart := 0, clientCount := 1,
          closing := false, clientWg := 1, watchDogCanceled := false }
      = ({ conn := some 7, idleTimeout := 30, timeIdleStart := 0, clientCount := 1,
           closing := false, clientWg := 1, watchDogCanceled := false }, []) :=
  ⟨by decide,
   (checkIdleConnection_borrowed 30 0 [Op.get liveCtx goodFactory]
     { pool := { conn := some 7, idleTimeout := 30, timeIdleStart := 0, clientCount := 1,
                 closing := false, clientWg := 1, watchDogCanceled := false },
       leases := [{ conn := some 7, returned := false }],
       log := [Event.newConnection] }
     86400000000000 (by decide) (by decide)).1⟩

/-! ## C4 -/

/-- C4, as stated, fails at the instant `now = timeIdleStart + idleTimeout`: the
pool holds connection 1, has no borrower, went idle at time 0 with an idle
timeout of 30, and the tick at time 30 closes nothing and keeps the
connection. -/
theorem checkIdleConnection_boundary_counterexample :
    idlePool.conn = some 1 ∧ idlePool.clientCount = 0 ∧
    (30 : Time) ≥ idlePool.timeIdleStart + idlePool.idleTimeout ∧
    checkIdleConnection 30 idlePool = (idlePool, []) := by
  decide

/-- C4, amended.  A watchdog tick closes the connection and sets the slot to nil
whenever a connection exists, `clientCount == 0` and
`now > timeIdleStart + idleTimeout`; with a connection, `clientCount == 0` and
`now ≤ timeIdleStart + idleTimeout` it changes nothing.  In particular, when a
`Return` at time `t` brings `clientCount` to zero and the slot holds a
connection, a tick at any `now > t + idleTimeout` evicts that connection. -/
theorem checkIdleConnection_evicts (p : Pool) (c : Conn) (now : Time)
    (hconn : p.conn = some c) (hcount : p.clientCount = 0) :
    (p.timeIdleStart + p.idleTimeout < now →
        checkIdleConnection now p = ({ p with conn := none }, [Event.connClose c])) ∧
    (now ≤ p.timeIdleStart + p.idleTimeout → checkIdleConnection now p = (p, [])) ∧
    (∀ (q : Pool) (l l1 : ClientConn) (t : Time), l.returned = false →
        l.Return t q = some (p, l1) → t + p.idleTimeout < now →
        checkIdleConnection now p = ({ p with conn := none }, [Event.connClose c])) := by
  have hlt : p.timeIdleStart + p.idleTimeout < now →
      checkIdleConnection now p = ({ p with conn := none }, [Event.connClose c]) := by
    intro h
    simp [checkIdleConnection, hconn, hcount, h]
  refine ⟨hlt, ?_, ?_⟩
  · intro h
    have h1 : ¬ p.timeIdleStart + p.idleTimeout < now := not_lt.mpr h
    simp [checkIdleConnection, hconn, hcount, h1]
  · intro q l l1 t hret hR ht
    apply hlt
    unfold ClientConn.Return at hR
    simp only [hret, Bool.false_eq_true, if_false] at hR
    by_cases hwg : q.clientWg = 0
    · simp [hwg] at hR
    · simp only [hwg, if_false, Option.some.injEq, Prod.mk.injEq] at hR
      obtain ⟨hp, _⟩ := hR
      subst hp
      simp only at hcount
      simp only [hcount, if_true]
      exact ht

/-- C4, amended, at a pool that holds connection 1 and went idle at time 0 with
an idle timeout of 30: the tick at time 31 evicts. -/
theorem checkIdleConnection_evicts_witness :
    idlePool.conn = some 1 ∧ idlePool.clientCount = 0 ∧
    idlePool.timeIdleStart + idlePool.idleTimeout < (31 : Time) ∧
    checkIdleConnection 31 idlePool
      = ({ idlePool with conn := none }, [Event.connClose 1]) :=
  ⟨by decide, by decide, by decide,
   (checkIdleConnection_evicts idlePool 1 31 (by decide) (by decide)).1 (by decide)⟩

/-! ## C5 -/

/-- C5: `Return` followed by `Return` on the same lease is `Return`, for every
pool, every lease and every pair of clock readings: the second call changes
neither the pool nor the lease.  For a lease just issued by `Get` the first
`Return` does not fail, and afterwards `clientCount` is what it was before the
`Get` (reduced to `uint64`): one increment, one decrement. -/
theorem Return_idempotent (p : Pool) (c : ClientConn) (t1 t2 : Time) :
    ((c.Return t1 p).bind fun r => r.2.Return t2 r.1) = c.Return t1 p ∧
    (∀ r, c.Return t1 p = some r → r.2.Return t2 r.1 = some r) ∧
    (∀ ctx factory l, (p.Get ctx factory).outcome = Outcome.lease l →
      ∃ q l1, l.Return t1 (p.Get ctx factory).pool = some (q, l1) ∧
        l1.Return t2 q = some (q, l1) ∧
        q.clientCount = p.clientCount % u64) := by
  have hsecond : ∀ r, c.Return t1 p = some r → r.2.Return t2 r.1 = some r := by
    intro r hr
    unfold ClientConn.Return at hr
    by_cases hret : c.returned = true
    · simp only [hret, if_true, Option.some.injEq] at hr
      subst hr
      simp [ClientConn.Return, hret]
    · simp only [hret, Bool.false_eq_true, if_false] at hr
      by_cases hwg : p.clientWg = 0
      · simp [hwg] at hr
      · simp only [hwg, if_false, Option.some.injEq] at hr
        subst hr
        simp [ClientConn.Return]
  refine ⟨?_, hsecond, ?_⟩
  · cases h : c.Return t1 p with
    | none => rfl
    | some r => simpa using hsecond r h
  · intro ctx factory l hl
    obtain ⟨hpool, hret, _⟩ := Get_lease_shape p ctx factory l hl
    have hmod : ((p.clientCount + 1) % u64 + u64 - 1) % u64 = p.clientCount % u64 := by
      unfold u64
      omega
    refine ⟨{ p with conn := l.conn, clientCount := p.clientCount % u64,
                     timeIdleStart := if p.clientCount % u64 = 0 then t1 else p.timeIdleStart },
      { conn := none, returned := true }, ?_, ?_, rfl⟩
    · rw [hpool]
      simp [ClientConn.Return, hret, hmod]
    · simp [ClientConn.Return]

/-! ## C6 -/

theorem step_closing (s s1 : Sys) (op : Op) (hstep : s.step op = some s1)
    (hclosing : s.pool.closing = true) : s1.pool.closing = true := by
  cases op with
  | get ctx factory =>
    have hget := Get_of_closing s.pool ctx factory hclosing
    simp only [Sys.step, hget, Option.some.injEq] at hstep
    rw [← hstep]
    exact hclosing
  | ret i now =>
    simp only [Sys.step, List.get?_eq_getElem?] at hstep
    cases hl : s.leases[i]? with
    | none => simp [hl] at hstep
    | some c =>
      cases hr : c.Return now s.pool with
      | none => simp [hl, hr] at hstep
      | some r =>
        obtain ⟨q, c1⟩ := r
        simp only [hl, hr, Option.some.injEq] at hstep
        rw [← hstep]
        show q.closing = true
        rw [Return_closing now s.pool q c c1 hr]
        exact hclosing
  | tick now =>
    simp only [Sys.step, Option.some.injEq] at hstep
    rw [← hstep]
    show (checkIdleConnection now s.pool).1.closing = true
    rw [checkIdleConnection_closing]
    exact hclosing
  | close =>
    simp only [Sys.step, Option.some.injEq] at hstep
    rw [← hstep]
    rfl

theorem run_closing (ops : List Op) (s s1 : Sys) (hrun : s.run ops = some s1)
    (hclosing : s.pool.closing = true) : s1.pool.closing = true := by
  induction ops generalizing s with
  | nil =>
    simp only [Sys.run, Option.some.injEq] at hrun
    subst hrun
    exact hclosing
  | cons op ops ih =>
    simp only [Sys.run] at hrun
    cases hstep : s.step op with
    | none => simp [hstep] at hrun
    | some s2 =>
      simp only [hstep, Option.some_bind] at hrun
      exact ih s2 hrun (step_closing s s2 op hstep hclosing)

/-- C6: once `Close` has run, in every state reached afterwards by any sequence
of `Get`, `Return`, watchdog ticks and `Close`, `closing` is still true, and
every `Get`, whatever its context and factory, returns `ErrClientConnClosing`
with no lease, makes no factory call (its event list is empty) and leaves the
pool, and the whole system state, unchanged. -/
theorem Get_after_Close (s0 s1 s : Sys) (ops : List Op)
    (hclose : s0.step Op.close = some s1) (hrun : s1.run ops = some s) :
    s.pool.closing = true ∧
    ∀ (ctx : Ctx) (factory : Factory),
      s.pool.Get ctx factory
        = { pool := s.pool, outcome := Outcome.error ErrClientConnClosing, events := [] } ∧
      s.step (Op.get ctx factory) = some s := by
  have h1 : s1.pool.closing = true := by
    simp only [Sys.step, Option.some.injEq] at hclose
    subst hclose
    rfl
  have h : s.pool.closing = true := run_closing ops s1 s hrun h1
  refine ⟨h, ?_⟩
  intro ctx factory
  have hget := Get_of_closing s.pool ctx factory h
  refine ⟨hget, ?_⟩
  simp only [Sys.step, hget, List.append_nil]

/-- C6 on a fresh pool that is closed and then sees a tick, a `Get`, and a second
`Close`: a later `Get` with a live context and a working factory is rejected. -/
theorem Get_after_Close_witness :
    ((Sys.init 30 0).step Op.close).isSome = true ∧
    ((Sys.init 30 0).run [Op.close, Op.tick 5, Op.get liveCtx goodFactory, Op.close]).isSome
      = true ∧
    { conn := none, idleTimeout := 30, timeIdleStart := 0, clientCount := 0, closing := true,
      clientWg := 0, watchDogCanceled := true : Pool }.Get liveCtx goodFactory
      = { pool := { conn := none, idleTimeout := 30, timeIdleStart := 0, clientCount := 0,
                    closing := true, clientWg := 0, watchDogCanceled := true },
          outcome := Outcome.error ErrClientConnClosing, events := [] } :=
  ⟨by decide, by decide,
   ((Get_after_Close (Sys.init 30 0)
      { pool := { conn := none, idleTimeout := 30, timeIdleStart := 0, clientCount := 0,
                  closing := true, clientWg := 0, watchDogCanceled := true },
        leases := [], log := [] }
      { pool := { conn := none, idleTimeout := 30, timeIdleStart := 0, clientCount := 0,
                  closing := true, clientWg := 0, watchDogCanceled := true },
        leases := [], log := [] }
      [Op.tick 5, Op.get liveCtx goodFactory, Op.close]
      (by decide) (by decide)).2 liveCtx goodFactory).1⟩

/-! ## C7 -/

/-- C7: on a pool that is not closing and holds connection `c0`, with a context
that is not canceled by the time the reconnecting `NewConnection` returns: if
the probe of `c0` fails with `e1` and `NewConnection` then fails with `e2`
(with or without a handle), `Get` returns exactly `e1`, issues no lease, and
the slot is nil afterwards; no other field of the pool changes. -/
theorem Get_reconnect_failed (p : Pool) (ctx : Ctx) (factory : Factory) (c0 : Conn)
    (e1 e2 : Err) (h : Option Conn)
    (hclosing : p.closing = false) (hconn : p.conn = some c0) (hctx : ctx.Err 2 = none)
    (hprobe : factory.ConnectionOk 0 (some c0) = some e1)
    (hnew : factory.NewConnection 1 = (h, some e2)) :
    (p.Get ctx factory).outcome = Outcome.error e1 ∧
    (p.Get ctx factory).pool.conn = none ∧
    (p.Get ctx factory).pool = { p with conn := none } := by
  have h1 : ctx.Err 1 = none := ctxErr_none_of_le ctx (by decide) hctx
  simp [Pool.Get, hclosing, hconn, h1, hctx, hprobe, hnew]

/-- C7 at a pool holding connection 1, with a factory whose probe fails with
`other 1` and whose `NewConnection` fails with `other 2`. -/
theorem Get_reconnect_failed_witness :
    (idlePool.Get liveCtx leakyFactory).outcome = Outcome.error (Err.other 1) ∧
    (idlePool.Get liveCtx leakyFactory).pool.conn = none :=
  ⟨(Get_reconnect_failed idlePool liveCtx leakyFactory 1 (Err.other 1) (Err.other 2) (some 2)
      (by decide) (by decide) (by decide) (by decide) (by decide)).1,
   (Get_reconnect_failed idlePool liveCtx leakyFactory 1 (Err.other 1) (Err.other 2) (some 2)
      (by decide) (by decide) (by decide) (by decide) (by decide)).2.1⟩

/-! ## C8 -/

/-- C8: on a pool that is not closing and holds connection `c0`, with a context
that is not canceled by the time the re-probe returns: if the probe of `c0`
fails, `NewConnection` then returns the handle `c1` with a nil error, and the
probe of `c1` fails, `Get` returns `ErrClientConnNotOk`, issues no lease,
closes `c1` as its last outside call, and the slot is nil afterwards. -/
theorem Get_reconnect_not_ok (p : Pool) (ctx : Ctx) (factory : Factory) (c0 c1 : Conn)
    (e1 e3 : Err)
    (hclosing : p.closing = false) (hconn : p.conn = some c0) (hctx : ctx.Err 3 = none)
    (hprobe : factory.ConnectionOk 0 (some c0) = some e1)
    (hnew : factory.NewConnection 1 = (some c1, none))
    (hreprobe : factory.ConnectionOk 2 (some c1) = some e3) :
    (p.Get ctx factory).outcome = Outcome.error ErrClientConnNotOk ∧
    (p.Get ctx factory).pool.conn = none ∧
    (p.Get ctx factory).pool = { p with conn := none } ∧
    (p.Get ctx factory).events
      = [Event.connectionOk (some c0), Event.connClose c0, Event.newConnection,
         Event.connectionOk (some c1), Event.connClose c1] := by
  have h1 : ctx.Err 1 = none := ctxErr_none_of_le ctx (by decide) hctx
  have h2 : ctx.Err 2 = none := ctxErr_none_of_le ctx (by decide) hctx
  simp [Pool.Get, hclosing, hconn, h1, h2, hctx, hprobe, hnew, hreprobe]

/-- C8 at a pool holding connection 1, with a factory whose probes all fail with
`other 1` and whose `NewConnection` returns handle 2. -/
theorem Get_reconnect_not_ok_witness :
    (idlePool.Get liveCtx unhealthyFactory).outcome = Outcome.error ErrClientConnNotOk ∧
    ErrClientConnNotOk ≠ Err.other 1 ∧
    (idlePool.Get liveCtx unhealthyFactory).pool.conn = none :=
  ⟨(Get_reconnect_not_ok idlePool liveCtx unhealthyFactory 1 2 (Err.other 1) (Err.other 1)
      (by decide) (by decide) (by decide) (by decide) (by decide) (by decide)).1,
   by decide,
   (Get_reconnect_not_ok idlePool liveCtx unhealthyFactory 1 2 (Err.other 1) (Err.other 1)
      (by decide) (by decide) (by decide) (by decide) (by decide) (by decide)).2.1⟩

/-! ## C10 -/

/-- C10: the claim says that a handle returned by a failing `NewConnection` is
closed before `Get` returns, on the empty-slot path and on the reconnection
path.  On a pool holding connection 1 whose probe fails, with a live context and
a `NewConnection` that fails while returning handle 2, `Get` returns the probe
error and empties the slot but never closes handle 2; with the context canceled
while that `NewConnection` runs, handle 2 is left in the slot, still not
closed.  On the empty-slot path the same factory answer is closed. -/
theorem Get_reconnect_leaks_handle :
    leakyFactory.NewConnection 1 = (some 2, some (Err.other 2)) ∧
    idlePool.Get liveCtx leakyFactory
      = { pool := { idlePool with conn := none }, outcome := Outcome.error (Err.other 1),
          events := [Event.connectionOk (some 1), Event.connClose 1, Event.newConnection] } ∧
    Event.connClose 2 ∉ (idlePool.Get liveCtx leakyFactory).events ∧
    (idlePool.Get (canceledCtx 2) leakyFactory).pool.conn = some 2 ∧
    Event.connClose 2 ∉ (idlePool.Get (canceledCtx 2) leakyFactory).events ∧
    ((New 30 0).Get liveCtx leakyFactory).events = [Event.newConnection, Event.connClose 2] ∧
    ((New 30 0).Get liveCtx leakyFactory).pool.conn = none := by
  decide

end Shared

namespace Grpcpool

/-! ## C9 -/

/-- C9, as stated, fails in both directions.  The plain error "boom" is none of
the listed signals, yet `connectionFailure` is true and the error comes back
unchanged.  The gRPC status error with code Internal and the message
"context canceled" carries a listed signal in its message, yet
`connectionFailure` is false and a new error is returned. -/
theorem DecodeGrpcError_counterexample :
    specRecognizedSignal plainError = false ∧
    DecodeGrpcError plainError = (true, ReturnErr.original) ∧
    specRecognizedSignal internalStatusError = true ∧
    DecodeGrpcError internalStatusError
      = (false, ReturnErr.rpcErr "error on grpc request context canceled (13)") := by
  decide

/-- C9, amended.  `connectionFailure` is false exactly when `status.FromError`
reports a gRPC status whose code is neither Canceled nor Unavailable; the
returned error is then a new error whose message is
"error on grpc request <status message> (<code>)", which contains the status
message and the code.  In every other case (a status with code Canceled or
Unavailable, `io.EOF`, any listed message, and any other error without a gRPC
status) `connectionFailure` is true and the error is returned unchanged. -/
theorem DecodeGrpcError_classification (err : GoError) :
    ((DecodeGrpcError err).1 = false ↔
      ∃ code message, err.grpcStatus = some (code, message) ∧
        code ≠ codesCanceled ∧ code ≠ codesUnavailable) ∧
    (∀ code message, err.grpcStatus = some (code, message) →
      code ≠ codesCanceled → code ≠ codesUnavailable →
      DecodeGrpcError err = (false, ReturnErr.rpcErr (rpcErrMessage message code)) ∧
      message.toList <:+: (rpcErrMessage message code).toList ∧
      (toString code).toList <:+: (rpcErrMessage message code).toList) ∧
    ((DecodeGrpcError err).1 = true → (DecodeGrpcError err).2 = ReturnErr.original) ∧
    (err.grpcStatus = none → DecodeGrpcError err = (true, ReturnErr.original)) ∧
    GrpcErrIsConnFail err = (DecodeGrpcError err).1 := by
  refine ⟨?_, ?_, ?_, ?_, rfl⟩
  · cases hs : err.grpcStatus with
    | none =>
      simp only [DecodeGrpcError, hs]
      constructor
      · intro h
        split_ifs at h
      · rintro ⟨_, _, h, _⟩
        cases h
    | some cm =>
      obtain ⟨code, message⟩ := cm
      simp only [DecodeGrpcError, hs]
      by_cases hc : code = codesCanceled ∨ code = codesUnavailable
      · simp only [hc, if_true]
        constructor
        · intro h
          cases h
        · rintro ⟨c, m, h, h1, h2⟩
          simp only [Option.some.injEq, Prod.mk.injEq] at h
          obtain ⟨rfl, _⟩ := h
          rcases hc with hc | hc
          · exact absurd hc h1
          · exact absurd hc h2
      · simp only [hc, if_false, true_iff]
        exact ⟨code, message, rfl, fun h => hc (Or.inl h), fun h => hc (Or.inr h)⟩
  · intro code message hs h1 h2
    refine ⟨?_, ?_, ?_⟩
    · simp [DecodeGrpcError, hs, h1, h2]
    · refine ⟨"error on grpc request ".toList, (" (" ++ toString code ++ ")").toList, ?_⟩
      simp [rpcErrMessage, String.data_append]
    · refine ⟨("error on grpc request " ++ message ++ " (").toList, ")".toList, ?_⟩
      simp [rpcErrMessage, String.data_append]
  · intro h
    cases hs : err.grpcStatus with
    | none =>
      simp only [DecodeGrpcError, hs]
      split_ifs <;> rfl
    | some cm =>
      obtain ⟨code, message⟩ := cm
      simp only [DecodeGrpcError, hs] at h ⊢
      by_cases hc : code = codesCanceled ∨ code = codesUnavailable
      · simp [hc]
      · simp [hc] at h
  · intro hs
    simp only [DecodeGrpcError, hs]
    split_ifs <;> rfl

end Grpcpool

namespace Shared

/-! ## Helper lemmas on the pool's counters -/

/-- A `Get` that issues no lease changes at most the connection slot. -/
theorem Get_frame_of_no_lease (p : Pool) (ctx : Ctx) (factory : Factory)
    (h : ∀ l, (p.Get ctx factory).outcome ≠ Outcome.lease l) :
    (p.Get ctx factory).pool.idleTimeout = p.idleTimeout ∧
    (p.Get ctx factory).pool.timeIdleStart = p.timeIdleStart ∧
    (p.Get ctx factory).pool.clientCount = p.clientCount ∧
    (p.Get ctx factory).pool.closing = p.closing ∧
    (p.Get ctx factory).pool.clientWg = p.clientWg ∧
    (p.Get ctx factory).pool.watchDogCanceled = p.watchDogCanceled := by
  rcases hcl : p.closing with _ | _
  · rcases hconn : p.conn with _ | c0
    · rcases hnew0 : factory.NewConnection 0 with ⟨c, _ | e0⟩
      · exfalso
        apply h { conn := c, returned := false }
        simp only [Pool.Get, hcl, hconn, hnew0, issue, Bool.false_eq_true, if_false]
      · rcases h1 : ctx.Err 1 with _ | ce1 <;>
          simp [Pool.Get, hcl, hconn, hnew0, h1]
    · rcases h1 : ctx.Err 1 with _ | ce1
      · rcases hok : factory.ConnectionOk 0 (some c0) with _ | e1
        · exfalso
          apply h { conn := some c0, returned := false }
          simp only [Pool.Get, hcl, hconn, h1, hok, issue, Bool.false_eq_true, if_false]
        · rcases hnew : factory.NewConnection 1 with ⟨c, _ | e2⟩
          · rcases h2 : ctx.Err 2 with _ | ce2
            · rcases h3 : ctx.Err 3 with _ | ce3
              · rcases hok2 : factory.ConnectionOk 2 c with _ | e3
                · exfalso
                  apply h { conn := c, returned := false }
                  simp only [Pool.Get, hcl, hconn, h1, hok, hnew, h2, h3, hok2, issue,
                    Bool.false_eq_true, if_false]
                · cases c <;>
                    simp [Pool.Get, hcl, hconn, h1, hok, hnew, h2, h3, hok2]
              · simp [Pool.Get, hcl, hconn, h1, hok, hnew, h2, h3]
            · simp [Pool.Get, hcl, hconn, h1, hok, hnew, h2]
          · rcases h2 : ctx.Err 2 with _ | ce2 <;>
              simp [Pool.Get, hcl, hconn, h1, hok, hnew, h2]
      · simp [Pool.Get, hcl, hconn, h1]
  · rw [Get_of_closing p ctx factory hcl]
    simp [hcl]

theorem checkIdleConnection_counters (now : Time) (p : Pool) :
    (checkIdleConnection now p).1.clientCount = p.clientCount ∧
    (checkIdleConnection now p).1.clientWg = p.clientWg := by
  unfold checkIdleConnection
  cases p.conn with
  | none => exact ⟨rfl, rfl⟩
  | some c =>
    by_cases h1 : p.clientCount > 0
    · simp [h1]
    · by_cases h2 : p.timeIdleStart + p.idleTimeout < now
      · simp [h1, h2]
      · simp [h1, h2]

/-- The effect of `Return` on a lease that has not been returned. -/
theorem Return_shape (now : Time) (p q : Pool) (c c1 : ClientConn)
    (hret : c.returned = false) (h : c.Return now p = some (q, c1)) :
    p.clientWg ≠ 0 ∧
    q = { p with clientCount := (p.clientCount + u64 - 1) % u64,
                 timeIdleStart := if (p.clientCount + u64 - 1) % u64 = 0 then now
                                  else p.timeIdleStart,
                 clientWg := p.clientWg - 1 } ∧
    c1 = { conn := none, returned := true } := by
  unfold ClientConn.Return at h
  simp only [hret, Bool.false_eq_true, if_false] at h
  by_cases hwg : p.clientWg = 0
  · simp [hwg] at h
  · simp only [hwg, if_false, Option.some.injEq, Prod.mk.injEq] at h
    exact ⟨hwg, h.1.symm, h.2.symm⟩

theorem Return_of_returned (now : Time) (p : Pool) (c : ClientConn) (hret : c.returned = true) :
    c.Return now p = some (p, c) := by
  unfold ClientConn.Return
  rw [if_pos hret]

theorem Return_of_unreturned (now : Time) (p : Pool) (c : ClientConn)
    (hret : c.returned = false) (hwg : p.clientWg ≠ 0) :
    c.Return now p
      = some ({ p with clientCount := (p.clientCount + u64 - 1) % u64,
                       timeIdleStart := if (p.clientCount + u64 - 1) % u64 = 0 then now
                                        else p.timeIdleStart,
                       clientWg := p.clientWg - 1 },
              { conn := none, returned := true }) := by
  unfold ClientConn.Return
  simp [hret, hwg]

theorem outstanding_append_unreturned (l : List ClientConn) (c : ClientConn)
    (hret : c.returned = false) : outstanding (l ++ [c]) = outstanding l + 1 := by
  simp [outstanding, List.countP_append, List.countP_cons, hret]

theorem outstanding_pos_of_unreturned (l : List ClientConn) (i : Nat) (c : ClientConn)
    (hget : l[i]? = some c) (hret : c.returned = false) : 0 < outstanding l := by
  unfold outstanding
  rw [List.countP_pos_iff]
  exact ⟨c, List.getElem?_mem hget, by simp [hret]⟩

theorem set_self_of_getElem? (l : List ClientConn) (i : Nat) (c : ClientConn)
    (hget : l[i]? = some c) : l.set i c = l := by
  induction l generalizing i with
  | nil => rfl
  | cons a l ih =>
    cases i with
    | zero =>
      simp only [List.getElem?_cons_zero, Option.some.injEq] at hget
      simp [hget]
    | succ i =>
      simp only [List.getElem?_cons_succ] at hget
      simp [ih i hget]

theorem outstanding_set_returned (l : List ClientConn) (i : Nat) (c c1 : ClientConn)
    (hget : l[i]? = some c) (hret : c.returned = false) (hret1 : c1.returned = true) :
    outstanding (l.set i c1) + 1 = outstanding l := by
  induction l generalizing i with
  | nil => simp at hget
  | cons a l ih =>
    cases i with
    | zero =>
      simp only [List.getElem?_cons_zero, Option.some.injEq] at hget
      subst hget
      simp [outstanding, List.countP_cons, hret, hret1]
    | succ i =>
      simp only [List.getElem?_cons_succ] at hget
      have h := ih i hget
      simp only [outstanding, List.set_cons_succ, List.countP_cons] at h ⊢
      omega

/-- One call keeps the wait-group counter equal to the number of unreturned
leases and `clientCount` equal to that number reduced to `uint64`. -/
theorem step_counters (s s1 : Sys) (op : Op) (hstep : s.step op = some s1)
    (hwg : s.pool.clientWg = outstanding s.leases)
    (hcount : s.pool.clientCount = outstanding s.leases % u64) :
    s1.pool.clientWg = outstanding s1.leases ∧
    s1.pool.clientCount = outstanding s1.leases % u64 := by
  cases op with
  | get ctx factory =>
    cases hout : (s.pool.Get ctx factory).outcome with
    | lease l =>
      obtain ⟨hpool, hret, _⟩ := Get_lease_shape s.pool ctx factory l hout
      simp only [Sys.step, hout, Option.some.injEq] at hstep
      rw [← hstep]
      simp only [hpool, outstanding_append_unreturned s.leases l hret, hwg, hcount]
      refine ⟨trivial, ?_⟩
      unfold u64
      omega
    | error e =>
      have hno : ∀ l, (s.pool.Get ctx factory).outcome ≠ Outcome.lease l := by
        intro l hl
        rw [hout] at hl
        cases hl
      obtain ⟨_, _, hc, _, hw, _⟩ := Get_frame_of_no_lease s.pool ctx factory hno
      simp only [Sys.step, hout, Option.some.injEq] at hstep
      rw [← hstep]
      exact ⟨hw.trans hwg, hc.trans hcount⟩
    | nilDeref =>
      simp [Sys.step, hout] at hstep
  | ret i now =>
    simp only [Sys.step, List.get?_eq_getElem?] at hstep
    cases hl : s.leases[i]? with
    | none => simp [hl] at hstep
    | some c =>
      cases hr : c.Return now s.pool with
      | none => simp [hl, hr] at hstep
      | some r =>
        obtain ⟨q, c1⟩ := r
        simp only [hl, hr, Option.some.injEq] at hstep
        rw [← hstep]
        show q.clientWg = outstanding (s.leases.set i c1) ∧
          q.clientCount = outstanding (s.leases.set i c1) % u64
        by_cases hret : c.returned = true
        · rw [Return_of_returned now s.pool c hret] at hr
          simp only [Option.some.injEq, Prod.mk.injEq] at hr
          rw [← hr.1, ← hr.2, set_self_of_getElem? s.leases i c hl]
          exact ⟨hwg, hcount⟩
        · have hret : c.returned = false := by simpa using hret
          obtain ⟨hne, hq, hc1⟩ := Return_shape now s.pool q c c1 hret hr
          have hset := outstanding_set_returned s.leases i c c1 hl hret (by rw [hc1])
          rw [hq]
          simp only [hwg, hcount]
          constructor
          · omega
          · unfold u64
            omega
  | tick now =>
    simp only [Sys.step, Option.some.injEq] at hstep
    rw [← hstep]
    obtain ⟨hc, hw⟩ := checkIdleConnection_counters now s.pool
    exact ⟨hw.trans hwg, hc.trans hcount⟩
  | close =>
    simp only [Sys.step, Option.some.injEq] at hstep
    rw [← hstep]
    exact ⟨hwg, hcount⟩

theorem run_counters (ops : List Op) (s s1 : Sys) (hrun : s.run ops = some s1)
    (hwg : s.pool.clientWg = outstanding s.leases)
    (hcount : s.pool.clientCount = outstanding s.leases % u64) :
    s1.pool.clientWg = outstanding s1.leases ∧
    s1.pool.clientCount = outstanding s1.leases % u64 := by
  induction ops generalizing s with
  | nil =>
    simp only [Sys.run, Option.some.injEq] at hrun
    rw [← hrun]
    exact ⟨hwg, hcount⟩
  | cons op ops ih =>
    simp only [Sys.run] at hrun
    cases hstep : s.step op with
    | none => simp [hstep] at hrun
    | some s2 =>
      simp only [hstep, Option.some_bind] at hrun
      obtain ⟨h1, h2⟩ := step_counters s s2 op hstep hwg hcount
      exact ih s2 hrun h1 h2

/-- In every state reached from `New` the wait-group counter is the number of
unreturned leases and `clientCount` is that number reduced to `uint64`. -/
theorem init_run_counters (idleTimeout : Duration) (t0 : Time) (ops : List Op) (s : Sys)
    (hrun : (Sys.init idleTimeout t0).run ops = some s) :
    s.pool.clientWg = outstanding s.leases ∧
    s.pool.clientCount = outstanding s.leases % u64 :=
  run_counters ops (Sys.init idleTimeout t0) s hrun rfl rfl

/-! ## C11 -/

/-- C11: on a pool that is not closing and whose slot is empty, when
`NewConnection` fails with `e` (with or without a handle): `Get` returns the
context's error if the context is canceled or expired when `NewConnection`
has returned, and exactly `e` otherwise; in both cases no lease is issued,
`clientCount` is unchanged and the slot is nil afterwards; indeed the whole
pool is as before. -/
theorem Get_create_failed (p : Pool) (ctx : Ctx) (factory : Factory) (h : Option Conn)
    (e : Err) (hclosing : p.closing = false) (hconn : p.conn = none)
    (hnew : factory.NewConnection 0 = (h, some e)) :
    (∀ ce, ctx.Err 1 = some ce → (p.Get ctx factory).outcome = Outcome.error ce) ∧
    (ctx.Err 1 = none → (p.Get ctx factory).outcome = Outcome.error e) ∧
    (∀ l, (p.Get ctx factory).outcome ≠ Outcome.lease l) ∧
    (p.Get ctx factory).pool.clientCount = p.clientCount ∧
    (p.Get ctx factory).pool.conn = none ∧
    (p.Get ctx factory).pool = p := by
  obtain ⟨conn, idle, start, count, closing, wg, canceled⟩ := p
  simp only at hclosing hconn
  subst hclosing hconn
  rcases h with _ | h0 <;> rcases h1 : ctx.Err 1 with _ | ce1 <;>
    simp [Pool.Get, hnew, h1]

/-- C11 on a fresh pool with a factory whose `NewConnection` fails with
`other 2`: with a live context `Get` returns `other 2`, with a context canceled
before the call it returns the context's error. -/
theorem Get_create_failed_witness :
    ((New 30 0).Get liveCtx leakyFactory).outcome = Outcome.error (Err.other 2) ∧
    ((New 30 0).Get (canceledCtx 0) leakyFactory).outcome = Outcome.error Err.canceled ∧
    ((New 30 0).Get (canceledCtx 0) leakyFactory).pool = New 30 0 :=
  ⟨(Get_create_failed (New 30 0) liveCtx leakyFactory (some 2) (Err.other 2)
      (by decide) (by decide) (by decide)).2.1 (by decide),
   (Get_create_failed (New 30 0) (canceledCtx 0) leakyFactory (some 2) (Err.other 2)
      (by decide) (by decide) (by decide)).1 Err.canceled (by decide),
   (Get_create_failed (New 30 0) (canceledCtx 0) leakyFactory (some 2) (Err.other 2)
      (by decide) (by decide) (by decide)).2.2.2.2.2⟩

/-! ## C12 -/

/-- C12: on a pool that is not closing and holds connection `c0`, when the
context is canceled or expired by the time the probe returns, `Get` returns the
context's error whatever the probe answered, its only outside call is that
probe (no `NewConnection`, no `Close`), and the pool is unchanged, so `c0`
stays in the slot. -/
theorem Get_probe_canceled (p : Pool) (ctx : Ctx) (factory : Factory) (c0 : Conn) (ce : Err)
    (hclosing : p.closing = false) (hconn : p.conn = some c0)
    (hctx : ctx.Err 1 = some ce) :
    p.Get ctx factory
      = { pool := p, outcome := Outcome.error ce,
          events := [Event.connectionOk (some c0)] } ∧
    Event.newConnection ∉ (p.Get ctx factory).events ∧
    Event.connClose c0 ∉ (p.Get ctx factory).events ∧
    (p.Get ctx factory).pool.conn = some c0 := by
  have hget : p.Get ctx factory
      = { pool := p, outcome := Outcome.error ce,
          events := [Event.connectionOk (some c0)] } := by
    simp only [Pool.Get, hclosing, hconn, hctx, Bool.false_eq_true, if_false]
  rw [hget]
  refine ⟨rfl, ?_, ?_, hconn⟩
  · simp
  · simp

/-- C12 at a pool holding connection 1, with a context canceled while the probe
runs and a factory whose probe fails. -/
theorem Get_probe_canceled_witness :
    idlePool.Get (canceledCtx 1) leakyFactory
      = { pool := idlePool, outcome := Outcome.error Err.canceled,
          events := [Event.connectionOk (some 1)] } :=
  (Get_probe_canceled idlePool (canceledCtx 1) leakyFactory 1 Err.canceled
    (by decide) (by decide) (by decide)).1

/-! ## C13 -/

/-- C13: whenever `Get` returns a lease, `clientCount` has been incremented once
(`clientCount++` on a `uint64`: the new value is the old one plus one reduced
modulo `2^64`, which is the old one plus one whenever the old one is below the
largest `uint64`), the wait group has one more borrower, the lease is
unreturned, and its `Connection()` is the connection in the slot after the
call: the existing connection when its probe succeeded, the handle returned by
`NewConnection` when the slot was empty, and the handle returned by the
reconnecting `NewConnection` when the probe of the existing connection
failed. -/
theorem Get_success (p : Pool) (ctx : Ctx) (factory : Factory) (l : ClientConn)
    (h : (p.Get ctx factory).outcome = Outcome.lease l) :
    (p.Get ctx factory).pool.clientCount = (p.clientCount + 1) % u64 ∧
    (p.clientCount + 1 < u64 → (p.Get ctx factory).pool.clientCount = p.clientCount + 1) ∧
    (p.Get ctx factory).pool.clientWg = p.clientWg + 1 ∧
    l.returned = false ∧
    l.Connection = (p.Get ctx factory).pool.conn ∧
    (∀ c0, p.conn = some c0 → factory.ConnectionOk 0 (some c0) = none →
      l.Connection = some c0) ∧
    (p.conn = none → l.Connection = (factory.NewConnection 0).1) ∧
    (∀ c0 e1, p.conn = some c0 → factory.ConnectionOk 0 (some c0) = some e1 →
      l.Connection = (factory.NewConnection 1).1 ∧
      (p.Get ctx factory).pool.conn = (factory.NewConnection 1).1) := by
  obtain ⟨hpool, hret, hclosing⟩ := Get_lease_shape p ctx factory l h
  refine ⟨by rw [hpool], ?_, by rw [hpool], hret, by rw [hpool]; rfl, ?_, ?_, ?_⟩
  · intro hlt
    rw [hpool]
    exact Nat.mod_eq_of_lt hlt
  · intro c0 hconn hok
    rcases h1 : ctx.Err 1 with _ | ce1
    · simp only [Pool.Get, hclosing, hconn, h1, hok, issue, Bool.false_eq_true, if_false,
        Outcome.lease.injEq] at h
      rw [← h, ← hconn]
      rfl
    · simp [Pool.Get, hclosing, hconn, h1] at h
  · intro hconn
    rcases hnew : factory.NewConnection 0 with ⟨c, _ | e0⟩
    · simp only [Pool.Get, hclosing, hconn, hnew, issue, Bool.false_eq_true, if_false,
        Outcome.lease.injEq] at h
      rw [← h]
      rfl
    · rcases h1 : ctx.Err 1 with _ | ce1 <;> simp [Pool.Get, hclosing, hconn, hnew, h1] at h
  · intro c0 e1 hconn hok
    have hslot : l.Connection = (p.Get ctx factory).pool.conn := by
      rw [hpool]
      rfl
    rw [← hslot, and_self]
    rcases h1 : ctx.Err 1 with _ | ce1
    · rcases hnew : factory.NewConnection 1 with ⟨c, _ | e2⟩
      · rcases h2 : ctx.Err 2 with _ | ce2
        · rcases h3 : ctx.Err 3 with _ | ce3
          · rcases hok2 : factory.ConnectionOk 2 c with _ | e3
            · simp only [Pool.Get, hclosing, hconn, h1, hok, hnew, h2, h3, hok2, issue,
                Bool.false_eq_true, if_false, Outcome.lease.injEq] at h
              rw [← h]
              rfl
            · cases c <;>
                simp [Pool.Get, hclosing, hconn, h1, hok, hnew, h2, h3, hok2] at h
          · simp [Pool.Get, hclosing, hconn, h1, hok, hnew, h2, h3] at h
        · simp [Pool.Get, hclosing, hconn, h1, hok, hnew, h2] at h
      · rcases h2 : ctx.Err 2 with _ | ce2 <;>
          simp [Pool.Get, hclosing, hconn, h1, hok, hnew, h2] at h
    · simp [Pool.Get, hclosing, hconn, h1] at h

/-- C13 on a fresh pool with a live context and a working factory: the count
goes from 0 to 1 and the lease wraps handle 7, which is in the slot.  And on a
pool holding connection 1 whose probe fails, with a factory that reconnects
with handle 2: the lease wraps handle 2, not the closed connection 1. -/
theorem Get_success_witness :
    ((New 30 0).Get liveCtx goodFactory).outcome
      = Outcome.lease { conn := some 7, returned := false } ∧
    ((New 30 0).Get liveCtx goodFactory).pool.clientCount = (New 30 0).clientCount + 1 ∧
    ClientConn.Connection { conn := some 7, returned := false }
      = ((New 30 0).Get liveCtx goodFactory).pool.conn ∧
    (idlePool.Get liveCtx reconnectFactory).outcome
      = Outcome.lease { conn := some 2, returned := false } ∧
    (reconnectFactory.NewConnection 1).1 = some 2 ∧
    ClientConn.Connection { conn := some 2, returned := false }
      = (reconnectFactory.NewConnection 1).1 ∧
    (idlePool.Get liveCtx reconnectFactory).pool.conn = (reconnectFactory.NewConnection 1).1 :=
  ⟨by decide,
   (Get_success (New 30 0) liveCtx goodFactory { conn := some 7, returned := false }
      (by decide)).2.1 (by decide),
   (Get_success (New 30 0) liveCtx goodFactory { conn := some 7, returned := false }
      (by decide)).2.2.2.2.1,
   by decide, by decide,
   ((Get_success idlePool liveCtx reconnectFactory { conn := some 2, returned := false }
      (by decide)).2.2.2.2.2.2.2 1 (Err.other 1) (by decide) (by decide)).1,
   ((Get_success idlePool liveCtx reconnectFactory { conn := some 2, returned := false }
      (by decide)).2.2.2.2.2.2.2 1 (Err.other 1) (by decide) (by decide)).2⟩

/-! ## C18 -/

/-- C18: whenever `Get` returns an error, on whatever path, it issues no lease
(the list of leases is as before), and `clientCount`, `timeIdleStart`,
`idleTimeout`, the closing flag and the wait-group counter are exactly as they
were before the call; only the connection slot may differ. -/
theorem Get_error_frame (s : Sys) (ctx : Ctx) (factory : Factory) (e : Err)
    (h : (s.pool.Get ctx factory).outcome = Outcome.error e) :
    (s.pool.Get ctx factory).pool.clientCount = s.pool.clientCount ∧
    (s.pool.Get ctx factory).pool.timeIdleStart = s.pool.timeIdleStart ∧
    (s.pool.Get ctx factory).pool.idleTimeout = s.pool.idleTimeout ∧
    (s.pool.Get ctx factory).pool.closing = s.pool.closing ∧
    (s.pool.Get ctx factory).pool.clientWg = s.pool.clientWg ∧
    (s.pool.Get ctx factory).pool.watchDogCanceled = s.pool.watchDogCanceled ∧
    s.step (Op.get ctx factory)
      = some { pool := (s.pool.Get ctx factory).pool, leases := s.leases,
               log := s.log ++ (s.pool.Get ctx factory).events } := by
  have hno : ∀ l, (s.pool.Get ctx factory).outcome ≠ Outcome.lease l := by
    intro l hl
    rw [h] at hl
    cases hl
  obtain ⟨h1, h2, h3, h4, h5, h6⟩ := Get_frame_of_no_lease s.pool ctx factory hno
  refine ⟨h3, h2, h1, h4, h5, h6, ?_⟩
  simp only [Sys.step, h]

/-- C18 at a pool holding connection 1 whose probe and reconnection both fail:
`Get` returns the probe error, the slot becomes nil and nothing else changes. -/
theorem Get_error_frame_witness :
    ({ pool := idlePool, leases := [], log := [] : Sys }.pool.Get liveCtx leakyFactory).outcome
      = Outcome.error (Err.other 1) ∧
    ({ pool := idlePool, leases := [], log := [] : Sys }.pool.Get liveCtx leakyFactory).pool
      = { idlePool with conn := none } ∧
    ({ pool := idlePool, leases := [], log := [] : Sys }.pool.Get liveCtx leakyFactory).pool.clientCount
      = idlePool.clientCount :=
  ⟨by decide, by decide,
   (Get_error_frame { pool := idlePool, leases := [], log := [] } liveCtx leakyFactory
      (Err.other 1) (by decide)).1⟩

/-! ## C14 -/

/-- C14: in every state reached from `New`, the first `Return` of a lease that
has not been returned does not fail; it decrements `clientCount` once (a
`uint64` decrement, which takes exactly one off whenever fewer than `2^64`
leases are outstanding), sets `timeIdleStart` to the current time if the new
`clientCount` is zero and leaves it unchanged otherwise, and leaves the
connection slot, `idleTimeout` and the closing flag unchanged; it makes no
outside call, so the log of closed connections is as before. -/
theorem Return_first (idleTimeout : Duration) (t0 : Time) (ops : List Op) (s : Sys)
    (i : Nat) (c : ClientConn) (now : Time)
    (hrun : (Sys.init idleTimeout t0).run ops = some s)
    (hlease : s.leases[i]? = some c) (hunret : c.returned = false) :
    ∃ q c1, c.Return now s.pool = some (q, c1) ∧
      q.clientCount = (s.pool.clientCount + u64 - 1) % u64 ∧
      (outstanding s.leases < u64 → q.clientCount + 1 = s.pool.clientCount) ∧
      q.timeIdleStart = (if q.clientCount = 0 then now else s.pool.timeIdleStart) ∧
      q.conn = s.pool.conn ∧ q.idleTimeout = s.pool.idleTimeout ∧
      q.closing = s.pool.closing ∧
      s.step (Op.ret i now) = some { pool := q, leases := s.leases.set i c1, log := s.log } := by
  obtain ⟨hwg, hcount⟩ := init_run_counters idleTimeout t0 ops s hrun
  have hpos : 0 < outstanding s.leases := outstanding_pos_of_unreturned s.leases i c hlease hunret
  have hne : s.pool.clientWg ≠ 0 := by omega
  have hR := Return_of_unreturned now s.pool c hunret hne
  refine ⟨{ s.pool with clientCount := (s.pool.clientCount + u64 - 1) % u64,
                        timeIdleStart := if (s.pool.clientCount + u64 - 1) % u64 = 0 then now
                                         else s.pool.timeIdleStart,
                        clientWg := s.pool.clientWg - 1 },
    { conn := none, returned := true }, hR, ?_, ?_, ?_, ?_, ?_, ?_, ?_⟩
  · simp only
  · intro hlt
    show (s.pool.clientCount + u64 - 1) % u64 + 1 = s.pool.clientCount
    rw [hcount]
    unfold u64 at hlt ⊢
    omega
  · simp only
  · simp only
  · simp only
  · simp only
  · simp only [Sys.step, List.get?_eq_getElem?, hlease, hR]

/-- C14 at the state after one successful `Get` on a fresh pool: `Return` at
time 100 takes `clientCount` from 1 to 0 and sets `timeIdleStart` to 100. -/
theorem Return_first_witness :
    (Sys.init 30 0).run [Op.get liveCtx goodFactory] = some oneLeaseSys ∧
    ∃ q c1, ClientConn.Return 100 oneLeaseSys.pool { conn := some 7, returned := false }
        = some (q, c1) ∧
      q.clientCount = (oneLeaseSys.pool.clientCount + u64 - 1) % u64 ∧
      (outstanding oneLeaseSys.leases < u64 → q.clientCount + 1 = oneLeaseSys.pool.clientCount) ∧
      q.timeIdleStart = (if q.clientCount = 0 then 100 else oneLeaseSys.pool.timeIdleStart) ∧
      q.conn = oneLeaseSys.pool.conn ∧ q.idleTimeout = oneLeaseSys.pool.idleTimeout ∧
      q.closing = oneLeaseSys.pool.closing ∧
      oneLeaseSys.step (Op.ret 0 100)
        = some { pool := q, leases := oneLeaseSys.leases.set 0 c1, log := oneLeaseSys.log } :=
  ⟨by decide,
   Return_first 30 0 [Op.get liveCtx goodFactory] oneLeaseSys 0
     { conn := some 7, returned := false } 100 (by decide) (by decide) (by decide)⟩

/-! ## C15 -/

/-- C15: a lease issued by `Get` is unreturned and its `Connection()` is the
connection the pool holds when `Get` returns.  `Return` on it does not fail;
after `Return`, in whatever pool state it is called, the lease is marked
returned and `Connection()` is nil, and every further `Return` leaves both the
lease and the pool as they are. -/
theorem lease_Connection (p : Pool) (ctx : Ctx) (factory : Factory) (l : ClientConn)
    (now : Time) (h : (p.Get ctx factory).outcome = Outcome.lease l) :
    l.returned = false ∧
    l.Connection = (p.Get ctx factory).pool.conn ∧
    (∃ q l1, l.Return now (p.Get ctx factory).pool = some (q, l1)) ∧
    (∀ (t : Time) (q0 q : Pool) (l1 : ClientConn), l.Return t q0 = some (q, l1) →
      l1.returned = true ∧ l1.Connection = none ∧
      ∀ (t2 : Time) (q2 : Pool), l1.Return t2 q2 = some (q2, l1) ∧
        l1.Connection = none) := by
  obtain ⟨hpool, hret, _⟩ := Get_lease_shape p ctx factory l h
  refine ⟨hret, by rw [hpool]; rfl, ?_, ?_⟩
  · have hne : (p.Get ctx factory).pool.clientWg ≠ 0 := by
      rw [hpool]
      exact Nat.succ_ne_zero _
    exact ⟨_, _, Return_of_unreturned now _ l hret hne⟩
  · intro t q0 q l1 hR
    obtain ⟨_, _, hl1⟩ := Return_shape t q0 q l l1 hret hR
    subst hl1
    refine ⟨rfl, rfl, ?_⟩
    intro t2 q2
    exact ⟨Return_of_returned t2 q2 _ rfl, rfl⟩

/-- C15 on a fresh pool with a working factory: the lease wraps handle 7, and
after `Return` at time 100 its `Connection()` is nil. -/
theorem lease_Connection_witness :
    ((New 30 0).Get liveCtx goodFactory).outcome
      = Outcome.lease { conn := some 7, returned := false } ∧
    ClientConn.Connection { conn := some 7, returned := false } = some 7 ∧
    ClientConn.Connection { conn := some 7, returned := false }
      = ((New 30 0).Get liveCtx goodFactory).pool.conn ∧
    ∃ q l1, ClientConn.Return 100 ((New 30 0).Get liveCtx goodFactory).pool
        { conn := some 7, returned := false } = some (q, l1) :=
  ⟨by decide, by decide,
   (lease_Connection (New 30 0) liveCtx goodFactory { conn := some 7, returned := false } 100
      (by decide)).2.1,
   (lease_Connection (New 30 0) liveCtx goodFactory { conn := some 7, returned := false } 100
      (by decide)).2.2.1⟩

/-! ## C17 -/

/-- C17: in every state reached from `New` by any sequence of `Get`, `Return`,
watchdog ticks and `Close`, the wait-group counter is the number of issued
leases that have not been returned and `clientCount` is that number as a
`uint64`; with fewer than `2^64` leases outstanding `clientCount` is exactly
that number, so it is zero exactly when no lease is outstanding.  `Return` on
an unreturned lease then does not fail and its decrement does not wrap: the new
`clientCount` plus one is the old one. -/
theorem clientCount_counts_outstanding (idleTimeout : Duration) (t0 : Time) (ops : List Op)
    (s : Sys) (hrun : (Sys.init idleTimeout t0).run ops = some s) :
    s.pool.clientWg = outstanding s.leases ∧
    s.pool.clientCount = outstanding s.leases % u64 ∧
    (outstanding s.leases < u64 →
      s.pool.clientCount = outstanding s.leases ∧
      (s.pool.clientCount = 0 ↔ outstanding s.leases = 0)) ∧
    (∀ (i : Nat) (c : ClientConn) (now : Time), s.leases[i]? = some c → c.returned = false →
      0 < s.pool.clientWg ∧
      ∃ q c1, c.Return now s.pool = some (q, c1) ∧
        (outstanding s.leases < u64 →
          0 < s.pool.clientCount ∧ q.clientCount + 1 = s.pool.clientCount)) := by
  obtain ⟨hwg, hcount⟩ := init_run_counters idleTimeout t0 ops s hrun
  refine ⟨hwg, hcount, ?_, ?_⟩
  · intro hlt
    have heq : s.pool.clientCount = outstanding s.leases := by
      rw [hcount]
      exact Nat.mod_eq_of_lt hlt
    exact ⟨heq, by rw [heq]⟩
  · intro i c now hlease hunret
    have hpos : 0 < outstanding s.leases :=
      outstanding_pos_of_unreturned s.leases i c hlease hunret
    have hne : s.pool.clientWg ≠ 0 := by omega
    refine ⟨by omega,
      { s.pool with clientCount := (s.pool.clientCount + u64 - 1) % u64,
                    timeIdleStart := if (s.pool.clientCount + u64 - 1) % u64 = 0 then now
                                     else s.pool.timeIdleStart,
                    clientWg := s.pool.clientWg - 1 },
      { conn := none, returned := true },
      Return_of_unreturned now s.pool c hunret hne, ?_⟩
    intro hlt
    show 0 < s.pool.clientCount ∧ (s.pool.clientCount + u64 - 1) % u64 + 1 = s.pool.clientCount
    rw [hcount]
    unfold u64 at hlt ⊢
    omega

/-- C17 at the state after two successful `Get`s and the `Return` of the first
lease: one lease is outstanding and `clientCount` is 1. -/
theorem clientCount_counts_outstanding_witness :
    ((Sys.init 30 0).run
      [Op.get liveCtx goodFactory, Op.get liveCtx goodFactory, Op.ret 0 5]).isSome = true ∧
    outstanding [{ conn := none, returned := true }, { conn := some 7, returned := false }] = 1 ∧
    ({ pool := { conn := some 7, idleTimeout := 30, timeIdleStart := 0, clientCount := 1,
                 closing := false, clientWg := 1, watchDogCanceled := false },
       leases := [{ conn := none, returned := true }, { conn := some 7, returned := false }],
       log := [Event.newConnection, Event.connectionOk (some 7)] } : Sys).pool.clientCount
      = outstanding [{ conn := none, returned := true }, { conn := some 7, returned := false }] :=
  ⟨by decide, by decide,
   ((clientCount_counts_outstanding 30 0
      [Op.get liveCtx goodFactory, Op.get liveCtx goodFactory, Op.ret 0 5]
      { pool := { conn := some 7, idleTimeout := 30, timeIdleStart := 0, clientCount := 1,
                  closing := false, clientWg := 1, watchDogCanceled := false },
        leases := [{ conn := none, returned := true }, { conn := some 7, returned := false }],
        log := [Event.newConnection, Event.connectionOk (some 7)] }
      (by decide)).2.2.1 (by decide)).1⟩

end Shared
